import Mathlib

/-
  Verification development for the ccpa-telegram core:
  engine adapters (claude / codex / copilot / opencode) and the
  context-resolution pipeline (src/context/resolver.ts).

  JavaScript strings are modelled as Lean `String` (a wrapper around
  `List Char`); JS objects used as string→string records are modelled as
  insertion-ordered association lists.  JS runtime builtins that the code
  calls (`JSON.parse`, `Date`, `execSync`, dynamic `import`) are modelled
  as explicit function parameters; everything else is translated directly
  from the TypeScript source.
-/

namespace Ccpa

/-! ## JS-style string helpers -/

/-- JS truthiness of a string: `""` is falsy, everything else truthy. -/
def strTruthy (s : String) : Bool := s ≠ ""

/-- JS `a || b` on strings. -/
def strOr (a b : String) : String := if a = "" then b else a

/-- JS `a || b` where `a` is a possibly-absent string (absent and `""` are falsy). -/
def optStrOr (a : Option String) (b : String) : String :=
  match a with
  | some s => if s = "" then b else s
  | none => b

/-- JS `a || b` where both sides are possibly-absent strings. -/
def optOrOpt (a b : Option String) : Option String :=
  match a with
  | some s => if s = "" then b else some s
  | none => b

/-- Truthiness of a possibly-absent string. -/
def optTruthy (a : Option String) : Bool :=
  match a with
  | some s => s ≠ ""
  | none => false

/-- Whitespace recognised by JS `String.prototype.trim`. -/
def isJsSpace (c : Char) : Bool :=
  c = ' ' || c = '\t' || c = '\n' || c = '\r' || c = '\x0b' || c = '\x0c'

/-- JS `s.trim()` on a character list. -/
def trimChars (l : List Char) : List Char :=
  ((l.dropWhile isJsSpace).reverse.dropWhile isJsSpace).reverse

/-- JS `s.trim()`. -/
def jsTrim (s : String) : String := ⟨trimChars s.data⟩

/-- Helper for JS `s.split("\n")`: split a character list at newlines. -/
def splitNlChars : List Char → List Char → List (List Char)
  | [], acc => [acc.reverse]
  | '\n' :: rest, acc => acc.reverse :: splitNlChars rest []
  | c :: rest, acc => splitNlChars rest (c :: acc)

/-- JS `s.split("\n")`. -/
def jsSplitNl (s : String) : List String :=
  (splitNlChars s.data []).map String.mk

/-! ## Context mappings

JS objects used as `Record<string, string>`: insertion-ordered association
lists with unique keys; assignment updates in place or appends. -/

/-- A context mapping (ordered string→string record). -/
abbrev CtxMap := List (String × String)

/-- Key lookup (`m[k]`, `undefined` mapped to `none`). -/
def getk : CtxMap → String → Option String
  | [], _ => none
  | (k0, v0) :: rest, k => if k0 = k then some v0 else getk rest k

/-- Assignment `m[k] = v`: update in place if present, else append. -/
def setk : CtxMap → String → String → CtxMap
  | [], k, v => [(k, v)]
  | (k0, v0) :: rest, k, v =>
      if k0 = k then (k, v) :: rest else (k0, v0) :: setk rest k v

/-- JS object spread `{...a, ...b}`: entries of `b` assigned over `a`. -/
def ctxMerge (a b : CtxMap) : CtxMap :=
  b.foldl (fun m kv => setk m kv.1 kv.2) a

/-! ## The `X{...}` placeholder scanner

The resolver uses three regexes of the common shape `X\{([^}]+)\}` with
`X` one of `$`, `@`, `#`, replaced globally via a callback.  JS regex
semantics: scan left to right; at a match, the body is everything up to
the first `}` after `X{` and must be non-empty; on a failed attempt the
scanner advances one character; replacement text is not re-scanned. -/

/-- Split a character list at the first `}`: body before it, rest after. -/
def braceSplit : List Char → Option (List Char × List Char)
  | [] => none
  | c :: rest =>
      if c = '\x7d' then some ([], rest)
      else match braceSplit rest with
        | some (body, rest2) => some (c :: body, rest2)
        | none => none

theorem braceSplit_length {l body rest : List Char}
    (h : braceSplit l = some (body, rest)) :
    body.length + 1 + rest.length = l.length := by
  induction l generalizing body rest with
  | nil => simp [braceSplit] at h
  | cons c cs ih =>
    simp only [braceSplit] at h
    by_cases hc : c = '\x7d'
    · simp [hc] at h
      obtain ⟨h1, h2⟩ := h
      subst h1; subst h2
      simp
      omega
    · simp [hc] at h
      cases hbs : braceSplit cs with
      | none => rw [hbs] at h; simp at h
      | some p =>
        rw [hbs] at h
        obtain ⟨b2, r2⟩ := p
        simp at h
        obtain ⟨h1, h2⟩ := h
        subst h1; subst h2
        have := ih hbs
        simp [List.length_cons]
        omega

/-- Global replace of `mark{body}` (non-empty body, body up to the first
`}`) by `repl body`, scanning left to right. -/
def substMarked (mark : Char) (repl : String → String) : List Char → List Char
  | [] => []
  | [c] => [c]
  | c :: c2 :: rest =>
      if c = mark then
        if c2 = '\x7b' then
          match h : braceSplit rest with
          | some (body, rest3) =>
              if body.isEmpty then c :: substMarked mark repl (c2 :: rest)
              else (repl ⟨body⟩).data ++ substMarked mark repl rest3
          | none => c :: substMarked mark repl (c2 :: rest)
        else c :: substMarked mark repl (c2 :: rest)
      else c :: substMarked mark repl (c2 :: rest)
  termination_by l => l.length
  decreasing_by
    · simp_arith
    · simp_arith
      have := braceSplit_length h
      omega
    · simp_arith
    · simp_arith
    · simp_arith

/-- Does the list contain a `mark{body}` match (regex `test`)? -/
def hasMarked (mark : Char) : List Char → Bool
  | [] => false
  | c :: rest =>
      if c = mark then
        match rest with
        | '\x7b' :: rest2 =>
            match braceSplit rest2 with
            | some (body, _) =>
                if body.isEmpty then hasMarked mark rest else true
            | none => hasMarked mark rest
        | _ => hasMarked mark rest
      else hasMarked mark rest

/-! ## Context resolver (src/context/resolver.ts)

`execSync` (message-time `@{}` evaluation) is modelled as a parameter
`shellEval : String → Option String` returning the raw stdout on success
and `none` on non-zero exit / timeout / spawn failure.  `process.env` is
an explicit `CtxMap` parameter. -/

/-- The `${}` replacement callback of `resolveAppVars`:
`vars[expr] ?? process.env[expr] ?? ""`. -/
def lookupVar (vars procEnv : CtxMap) (expr : String) : String :=
  match getk vars expr with
  | some v => v
  | none =>
    match getk procEnv expr with
    | some v => v
    | none => ""

/-- resolver.ts `resolveAppVars`: replace every `${name}` using the
mapping, then the process environment, then the empty string. -/
def resolveAppVars (value : String) (vars procEnv : CtxMap) : String :=
  ⟨substMarked '$' (lookupVar vars procEnv) value.data⟩

/-- resolver.ts `evaluateMessageTimeShells`: replace every `@{cmd}` with
the trimmed output of running `cmd`, or `""` on any failure. -/
def evaluateMessageTimeShells (value : String)
    (shellEval : String → Option String) : String :=
  ⟨substMarked '@'
    (fun cmd =>
      match shellEval cmd with
      | some out => jsTrim out
      | none => "")
    value.data⟩

/-! ### Claude Code-compatible slug (resolver.ts `claudeSlug`) -/

/-- ASCII membership test for the character class `[a-zA-Z0-9_-]`. -/
def isSlugKeep (c : Char) : Bool :=
  ('a' ≤ c && c ≤ 'z') || ('A' ≤ c && c ≤ 'Z') || ('0' ≤ c && c ≤ '9')
    || c = '_' || c = '-'

/-- First replace of `claudeSlug`: `/[/\\]/g` → `-`. -/
def slugMapSep (c : Char) : Char :=
  if c = '/' || c = '\\' then '-' else c

/-- Second replace of `claudeSlug`: `/[^a-zA-Z0-9_-]/g` → `-`. -/
def slugMapOther (c : Char) : Char :=
  if isSlugKeep c then c else '-'

/-- Third replace of `claudeSlug`: every run of dashes collapses to one
dash.  The flag records whether the previous character was a dash. -/
def collapseDashes : Bool → List Char → List Char
  | _, [] => []
  | prevDash, c :: rest =>
      if c = '-' then
        if prevDash then collapseDashes true rest
        else '-' :: collapseDashes true rest
      else c :: collapseDashes false rest

/-- resolver.ts `claudeSlug`: separators → `-`, other non-word chars →
`-`, dash runs collapsed. -/
def claudeSlug (absoluteCwd : String) : String :=
  ⟨collapseDashes false ((absoluteCwd.data.map slugMapSep).map slugMapOther)⟩

/-! ### Implicit context (bot.* / sys.* keys) -/

/-- Telegram user as read by the resolver (`gramCtx.from`). -/
structure GramUser where
  id : Int
  username : Option String
  first_name : Option String

/-- Telegram message as read by the resolver (`gramCtx.message`).
The payload fields record only the presence/truthiness the code tests. -/
structure GramMsg where
  message_id : Int
  date : Option Int
  text : Option String
  hasPhoto : Bool
  hasDocument : Bool
  hasVoice : Bool

/-- Telegram update context as read by the resolver. -/
structure GramCtx where
  message : Option GramMsg
  sender : Option GramUser
  chatId : Option Int

/-- resolver.ts `deriveMessageType`. -/
def deriveMessageType (g : GramCtx) : String :=
  match g.message with
  | none => "unknown"
  | some m =>
      if optTruthy m.text then "text"
      else if m.hasPhoto then "photo"
      else if m.hasDocument then "document"
      else if m.hasVoice then "voice"
      else "unknown"

/-- The JS `Date`/`Intl` values the resolver reads, plus
`Date.prototype.toISOString` as an environment function on epoch ms. -/
structure SysNow where
  nowMs : Int
  year : Int
  monthIdx : Int
  day : Int
  hour : Int
  minute : Int
  second : Int
  tzOffsetMinutes : Int
  timeZone : Option String
  toISO : Int → String

/-- resolver.ts `buildImplicitContext` (bot.* keys). -/
def buildImplicitContext (g : GramCtx) (now : SysNow) : CtxMap :=
  let ts : Int :=
    match g.message with
    | some m => match m.date with | some d => d | none => now.nowMs / 1000
    | none => now.nowMs / 1000
  [ ("bot.messageId",
      match g.message with | some m => toString m.message_id | none => ""),
    ("bot.timestamp", toString ts),
    ("bot.datetime", now.toISO (ts * 1000)),
    ("bot.userId",
      match g.sender with | some u => toString u.id | none => ""),
    ("bot.username",
      match g.sender with | some u => u.username.getD "" | none => ""),
    ("bot.firstName",
      match g.sender with | some u => u.first_name.getD "" | none => ""),
    ("bot.chatId",
      match g.chatId with | some c => toString c | none => ""),
    ("bot.messageType", deriveMessageType g) ]

/-- JS `String(n).padStart(2, "0")`. -/
def padTwo (n : Int) : String :=
  let s := toString n
  if s.length < 2 then "0" ++ s else s

/-- resolver.ts `buildSystemContext` (sys.* keys). -/
def buildSystemContext (now : SysNow) : CtxMap :=
  let yyyy := toString now.year
  let mm := padTwo (now.monthIdx + 1)
  let dd := padTwo now.day
  let hh := padTwo now.hour
  let mi := padTwo now.minute
  let ss := padTwo now.second
  let tzOffsetMin := -now.tzOffsetMinutes
  let tzSign := if tzOffsetMin ≥ 0 then "+" else "-"
  let tzH := padTwo (|tzOffsetMin| / 60)
  let tzM := padTwo (|tzOffsetMin| % 60)
  let tzOffset := tzSign ++ tzH ++ ":" ++ tzM
  let tz :=
    match now.timeZone with
    | some z => z
    | none => "UTC" ++ tzOffset
  [ ("sys.datetime",
      yyyy ++ "-" ++ mm ++ "-" ++ dd ++ " " ++ hh ++ ":" ++ mi ++ ":" ++ ss
        ++ " UTC" ++ tzSign ++ toString (|tzOffsetMin| / 60)),
    ("sys.date", yyyy ++ "-" ++ mm ++ "-" ++ dd),
    ("sys.time", hh ++ ":" ++ mi ++ ":" ++ ss),
    ("sys.ts", toString (now.nowMs / 1000)),
    ("sys.tz", tz) ]

/-! ### Hot-reloaded context hooks -/

/-- A context hook (`default` export of a `context.mjs` file): a mapping
transform that may throw. -/
abbrev Hook := CtxMap → Except String CtxMap

/-- resolver.ts `loadAndRunHook`: `none` models a missing hook file; a
throwing hook is caught and the pre-hook mapping returned unchanged. -/
def loadAndRunHook (hook : Option Hook) (context : CtxMap) : CtxMap :=
  match hook with
  | none => context
  | some f =>
      match f context with
      | .ok next => next
      | .error _ => context

/-! ### Main orchestrator (resolver.ts `resolveContext`) -/

/-- Inputs of `resolveContext`, with JS runtime effects (shell, clock,
process env, hook files) as explicit values. -/
structure ResolveOpts where
  gramCtx : GramCtx
  configContext : Option CtxMap
  bootShellCache : CtxMap
  projectCwd : String
  projectName : Option String
  projectSlug : String
  procEnv : CtxMap
  sysNow : SysNow
  shellEval : String → Option String
  globalHook : Option Hook
  projectHook : Option Hook

/-- Step 3 of `resolveContext`: iterate over a snapshot of the entries,
rewriting each value containing `${}` against the evolving mapping. -/
def resolveVarsPass (procEnv : CtxMap) : CtxMap → CtxMap → CtxMap
  | m, [] => m
  | m, (k, v) :: rest =>
      resolveVarsPass procEnv
        (if hasMarked '$' v.data then setk m k (resolveAppVars v m procEnv) else m)
        rest

/-- Step 4 of `resolveContext`: iterate over a snapshot of the entries,
rewriting each value containing `@{}` via the shell evaluator. -/
def resolveShellPass (shellEval : String → Option String) :
    CtxMap → CtxMap → CtxMap
  | m, [] => m
  | m, (k, v) :: rest =>
      resolveShellPass shellEval
        (if hasMarked '@' v.data
          then setk m k (evaluateMessageTimeShells v shellEval) else m)
        rest

/-- Steps 1–4 of `resolveContext`: implicit keys, config overlay (with
boot-cached `#{}` values), `${}` pass, `@{}` pass. -/
def resolveContextCore (opts : ResolveOpts) : CtxMap :=
  let slug := claudeSlug opts.projectCwd
  let implicit :=
    ctxMerge
      (ctxMerge (buildImplicitContext opts.gramCtx opts.sysNow)
        (buildSystemContext opts.sysNow))
      [ ("project.name",
             match opts.projectName with
             | some n => n
             | none => opts.projectSlug),
           ("project.cwd", opts.projectCwd),
           ("project.slug", slug) ]
  let merged :=
    match opts.configContext with
    | some cc =>
        cc.foldl
          (fun m kv =>
            setk m kv.1
              (match getk opts.bootShellCache kv.1 with
               | some cached => cached
               | none => kv.2))
          implicit
    | none => implicit
  let merged := resolveVarsPass opts.procEnv merged merged
  resolveShellPass opts.shellEval merged merged

/-- resolver.ts `resolveContext`: steps 1–4, then the global hook, then
the project hook. -/
def resolveContext (opts : ResolveOpts) : CtxMap :=
  loadAndRunHook opts.projectHook
    (loadAndRunHook opts.globalHook (resolveContextCore opts))

/-! ## Engine adapters: shared shapes

`EngineResult` follows `src/engine/types.ts`.  A child-process run is
either a spawn error (the `error` event: the process never produced
output) or an exit with a close code (`null` when killed by a signal)
and the stdout / stderr data chunks as delivered. -/

/-- `EngineResult` of src/engine/types.ts. -/
structure EngineResult where
  success : Bool
  output : String
  sessionId : Option String := none
  error : Option String := none
deriving Repr, DecidableEq

/-- Observable behaviour of one spawned child process. -/
inductive ProcOutcome where
  | spawnError (message : String)
  | exited (code : Option Int) (stdoutChunks stderrChunks : List String)

/-- Accumulated `stderrOutput`: each chunk is trimmed and appended with a
trailing newline when non-empty. -/
def accumStderr (chunks : List String) : String :=
  chunks.foldl
    (fun acc c => let t := jsTrim c; if t = "" then acc else acc ++ t ++ "\n")
    ""

/-- JS template interpolation of a nullable close code (`null` prints as
the string "null"). -/
def showExitCode : Option Int → String
  | some n => toString n
  | none => "null"

/-! ## Claude adapter (streaming line-event parser)

Each stdout line is `JSON.parse`d inside a try/catch; `JSON.parse` plus
the field reads the code performs are modelled by a decode parameter
`String → Option ClaudeEvent` (`none` = invalid JSON / unusable line).
Fields keep JS absent-vs-empty distinctions as `Option String`. -/

/-- The `input` fields of a `tool_use` block that the progress-template
table reads (absent property reads give `none`). -/
structure ToolInput where
  file_path : Option String := none
  pattern : Option String := none
  command : Option String := none
  query : Option String := none
  url : Option String := none

/-- One element of `event.message.content`. -/
inductive ClaudeBlock where
  | text (t : Option String)
  | toolUse (name : Option String) (input : ToolInput)
  | other

/-- A decoded stream-json event, carrying the fields the adapter reads. -/
structure ClaudeEvent where
  type : Option String := none
  subtype : Option String := none
  session_id : Option String := none
  content : Option (List ClaudeBlock) := none
  is_error : Bool := false
  result : Option String := none
  errors : Option (List String) := none

/-- Progress template table for `tool_use` blocks (part_002 lines
101–122). -/
def claudeProgressMsg (name0 : Option String) (inp : ToolInput) : String :=
  let toolName := optStrOr name0 "unknown"
  if toolName = "Read" && optTruthy inp.file_path then
    "Reading: " ++ inp.file_path.getD ""
  else if toolName = "Grep" && optTruthy inp.pattern then
    "Searching for: " ++ inp.pattern.getD ""
  else if toolName = "Glob" && optTruthy inp.pattern then
    "Finding files: " ++ inp.pattern.getD ""
  else if toolName = "Bash" && optTruthy inp.command then
    let cmd := inp.command.getD ""
    "Running: " ++ String.mk (cmd.data.take 50)
      ++ (if cmd.length > 50 then "..." else "")
  else if toolName = "Edit" && optTruthy inp.file_path then
    "Editing: " ++ inp.file_path.getD ""
  else if toolName = "Write" && optTruthy inp.file_path then
    "Writing: " ++ inp.file_path.getD ""
  else if toolName = "WebSearch" && optTruthy inp.query then
    "Searching web: " ++ inp.query.getD ""
  else if toolName = "WebFetch" && optTruthy inp.url then
    "Fetching: " ++ inp.url.getD ""
  else "Using " ++ toolName ++ "..."

/-- Mutable state of the Claude stdout scanner, plus the progress
messages forwarded to `onProgress`. -/
structure ClaudeScan where
  lastResult : Option EngineResult := none
  currentSessionId : Option String := none
  lastAssistantText : String := ""
  progress : List String := []

/-- `; `-join of `event.errors` when present and non-empty
(`event.errors?.length ? event.errors.join("; ") : undefined`). -/
def errorsJoin : Option (List String) → Option String
  | some es => if es.length ≠ 0 then some (String.intercalate "; " es) else none
  | none => none

/-- The `error` field stored by the `result`-event branch. -/
def claudeErrMsg (ev : ClaudeEvent) : Option String :=
  if ev.is_error then optOrOpt ev.result (errorsJoin ev.errors) else none

/-- The per-block loop of the assistant-message branch: text blocks
overwrite the last assistant text, tool_use blocks emit a progress
message. -/
def claudeBlocksFold (blocks : List ClaudeBlock) (st : ClaudeScan) :
    ClaudeScan :=
  blocks.foldl
    (fun s b =>
      match b with
      | .text t =>
          if optTruthy t then { s with lastAssistantText := t.getD "" } else s
      | .toolUse name inp =>
          { s with progress := s.progress ++ [claudeProgressMsg name inp] }
      | .other => s)
    st

/-- Per-event state update: the four independent `if` branches of the
stdout data handler (session-init, assistant blocks, tool-result logging,
terminal result). -/
def claudeStep (st : ClaudeScan) (ev : ClaudeEvent) : ClaudeScan :=
  let st :=
    if ev.type = some "system" && ev.subtype = some "init"
        && optTruthy ev.session_id then
      { st with currentSessionId := ev.session_id }
    else st
  let st :=
    if ev.type = some "assistant" && ev.content.isSome then
      claudeBlocksFold (ev.content.getD []) st
    else st
  -- the `user` / tool_result branch only logs and changes no state
  if ev.type = some "result" then
    { st with
      lastResult := some
        { success := !ev.is_error,
          output := ev.result.getD "",
          sessionId := optOrOpt ev.session_id st.currentSessionId,
          error := claudeErrMsg ev } }
  else st

/-- The lines a list of stdout data chunks yields:
`chunk.split("\n").filter((line) => line.trim())`. -/
def claudeLinesOf (chunks : List String) : List String :=
  (chunks.map (fun c => (jsSplitNl c).filter (fun l => jsTrim l ≠ ""))).flatten

/-- Fold the scanner over the decoded stdout lines (invalid JSON lines
are silently skipped). -/
def claudeFold (decode : String → Option ClaudeEvent)
    (lines : List String) (st : ClaudeScan) : ClaudeScan :=
  lines.foldl
    (fun s line =>
      match decode line with
      | some ev => claudeStep s ev
      | none => s)
    st

/-- The `close` handler: emit the captured terminal result, else
synthesize success from the last assistant text on a zero exit, else
synthesize a failure from stderr or the exit code. -/
def claudeClose (st : ClaudeScan) (code : Option Int) (stderrOut : String) :
    EngineResult :=
  match st.lastResult with
  | some r => r
  | none =>
      if code = some 0 then
        { success := true,
          output := strOr st.lastAssistantText "No response received",
          sessionId := st.currentSessionId }
      else
        { success := false,
          output := st.lastAssistantText,
          error := some (strOr (jsTrim stderrOut)
            ("Claude exited with code " ++ showExitCode code)) }

/-- Claude `execute` argument vector (part_002 lines 44–60). -/
def claudeArgs (fullPrompt : String) (model sessionId : Option String) :
    List String :=
  ["-p", fullPrompt, "--output-format", "stream-json", "--verbose"]
    ++ (match model with
        | some m => if m = "" then [] else ["--model", m]
        | none => [])
    ++ (match sessionId with
        | some s => if s = "" then [] else ["--resume", s]
        | none => [])

/-- Claude `execute` as a function of the process outcome. -/
def claudeExecute (cmd : String) (decode : String → Option ClaudeEvent)
    (outcome : ProcOutcome) : EngineResult :=
  match outcome with
  | .spawnError msg =>
      { success := false, output := "",
        error := some ("Failed to start " ++ cmd ++ ": " ++ msg) }
  | .exited code stdoutChunks stderrChunks =>
      claudeClose (claudeFold decode (claudeLinesOf stdoutChunks) {})
        code (accumStderr stderrChunks)

/-! ## Codex adapter (buffered stdout, permission tiers) -/

/-- The three independent permission flags of `config.codex`. -/
structure CodexConfig where
  dangerouslyEnableYolo : Bool
  fullDiskAccess : Bool
  networkAccess : Bool

/-- The argument vector, selected tier, and warnings logged by one Codex
invocation. -/
structure CodexInvocation where
  args : List String
  tier : String
  warnings : List String

/-- `config.engineSession && continueSession !== false`. -/
def continueRequested (engineSession : Bool) (continueSession : Option Bool) :
    Bool :=
  engineSession && !(continueSession = some false)

/-- Codex argument construction (codex.ts lines 55–92): permission tier
by flag precedence, optional model, resume-or-cwd, then the prompt. -/
def codexBuildArgs (codex : CodexConfig) (model : Option String)
    (continueSessionRequested : Bool) (cwd fullPrompt : String) :
    CodexInvocation :=
  let args := ["exec"]
  let sel :=
    if codex.dangerouslyEnableYolo then
      (args ++ ["--dangerously-bypass-approvals-and-sandbox",
                "--skip-git-repo-check"],
       "yolo",
       ["Codex running with --yolo: all sandboxing and approvals disabled"])
    else if codex.fullDiskAccess then
      (args ++ ["--sandbox", "danger-full-access", "--skip-git-repo-check"],
       "full-disk-access", ([] : List String))
    else if codex.networkAccess then
      (args ++ ["--full-auto", "-c",
                "sandbox_workspace_write.network_access=true",
                "--skip-git-repo-check"],
       "network-access", [])
    else
      (args ++ ["--full-auto", "--skip-git-repo-check"], "default", [])
  let args := sel.1
  let args := args ++ (match model with
    | some m => if m = "" then [] else ["-m", m]
    | none => [])
  let args := args
    ++ (if continueSessionRequested then ["resume", "--last"] else ["-C", cwd])
  { args := args ++ [fullPrompt], tier := sel.2.1, warnings := sel.2.2 }

/-- Codex `execute` as a function of the process outcome (close handler
at codex.ts lines 127–141, error handler at 143–151). -/
def codexExecute (cmd : String) (outcome : ProcOutcome) : EngineResult :=
  match outcome with
  | .spawnError msg =>
      { success := false, output := "",
        error := some ("Failed to start " ++ cmd ++ ": " ++ msg) }
  | .exited code stdoutChunks stderrChunks =>
      let stdout := String.join stdoutChunks
      let stderrOut := accumStderr stderrChunks
      if code = some 0 then
        { success := true, output := strOr (jsTrim stdout) "No response received" }
      else
        { success := false, output := "",
          error := some (strOr (jsTrim stderrOut)
            ("Codex exited with code " ++ showExitCode code)) }

/-! ## Copilot adapter -/

/-- Copilot `execute` argument vector (copilot.ts lines 50–60). -/
def copilotArgs (fullPrompt : String) (model : Option String)
    (engineSession : Bool) (continueSession : Option Bool) : List String :=
  ["-p", fullPrompt, "--allow-all"]
    ++ (match model with
        | some m => if m = "" then [] else ["--model", m]
        | none => [])
    ++ (if engineSession && !(continueSession = some false)
        then ["--continue"] else [])

/-- Copilot `execute` as a function of the process outcome (close handler
at copilot.ts lines 94–115, error handler at 117–124). -/
def copilotExecute (cmd : String) (outcome : ProcOutcome) : EngineResult :=
  match outcome with
  | .spawnError msg =>
      { success := false, output := "",
        error := some ("Failed to start " ++ cmd ++ ": " ++ msg) }
  | .exited code stdoutChunks stderrChunks =>
      let stdout := String.join stdoutChunks
      let stderrOut := accumStderr stderrChunks
      if code = some 0 then
        { success := true, output := strOr (jsTrim stdout) "No response received" }
      else
        { success := false, output := jsTrim stdout,
          error := some (strOr (jsTrim stderrOut)
            ("Copilot exited with code " ++ showExitCode code)) }

/-! ## OpenCode adapter -/

/-- OpenCode `execute` argument vector (opencode.ts lines 48–58). -/
def opencodeArgs (fullPrompt : String) (model : Option String)
    (engineSession : Bool) (continueSession : Option Bool) : List String :=
  ["run"]
    ++ (match model with
        | some m => if m = "" then [] else ["-m", m]
        | none => [])
    ++ (if engineSession && !(continueSession = some false) then ["-c"] else [])
    ++ [fullPrompt]

/-- OpenCode `execute` as a function of the process outcome. -/
def opencodeExecute (cmd : String) (outcome : ProcOutcome) : EngineResult :=
  match outcome with
  | .spawnError msg =>
      { success := false, output := "",
        error := some ("Failed to start " ++ cmd ++ ": " ++ msg) }
  | .exited code stdoutChunks stderrChunks =>
      let stdout := String.join stdoutChunks
      let stderrOut := accumStderr stderrChunks
      if code = some 0 then
        { success := true, output := strOr (jsTrim stdout) "No response received" }
      else
        { success := false, output := "",
          error := some (strOr (jsTrim stderrOut)
            ("OpenCode exited with code " ++ showExitCode code)) }

/-! ## Buffered-text `parse` (codex / copilot / opencode) -/

/-- Codex `parse` (codex.ts lines 154–159). -/
def codexParse (result : EngineResult) : String :=
  if !result.success then optStrOr result.error "An unknown error occurred"
  else strOr result.output "No response received"

/-- Copilot `parse` (copilot.ts lines 128–135). -/
def copilotParse (result : EngineResult) : String :=
  if !result.success then optStrOr result.error "An unknown error occurred"
  else strOr result.output "No response received"

/-- OpenCode `parse` (opencode.ts lines 129–134). -/
def opencodeParse (result : EngineResult) : String :=
  if !result.success then optStrOr result.error "An unknown error occurred"
  else strOr result.output "No response received"

/-! ## Claude `parse` (part_002 lines 229–275)

This parse decodes `result.output` with `JSON.parse` and navigates the
untyped value, so JSON values are modelled explicitly.  `JSON.parse` and
`JSON.stringify(·, null, 2)` are runtime builtins, passed as parameters;
the navigation (including the implicit throw of a property read on
`null`, caught by the surrounding try/catch) is translated directly. -/

/-- A JSON value (JS numbers restricted to the integers the code could
compare; no claim depends on float formatting). -/
inductive Js where
  | null
  | bool (b : Bool)
  | num (n : Int)
  | str (s : String)
  | arr (elems : List Js)
  | obj (fields : List (String × Js))

/-- JS truthiness of a JSON value. -/
def jsTruthy : Js → Bool
  | .null => false
  | .bool b => b
  | .num n => n ≠ 0
  | .str s => s ≠ ""
  | .arr _ => true
  | .obj _ => true

/-- Object field lookup. -/
def jsObjGet : List (String × Js) → String → Option Js
  | [], _ => none
  | (k0, v0) :: rest, k => if k0 = k then some v0 else jsObjGet rest k

/-- Property read on a non-null value (`undefined` as `none`).  Reads on
`Js.null` throw instead and are handled at the call sites. -/
def jsField : Js → String → Option Js
  | .obj fs, k => jsObjGet fs k
  | _, _ => none

/-- Is the value `null`? -/
def jsIsNull : Js → Bool
  | .null => true
  | _ => false

/-- Strict equality `v === "text"` against a string literal. -/
def jsIsStr (v : Option Js) (s : String) : Bool :=
  match v with
  | some (.str t) => t = s
  | _ => false

mutual

/-- JS `String(v)` for JSON values. -/
def jsToString : Js → String
  | .null => "null"
  | .bool b => if b then "true" else "false"
  | .num n => toString n
  | .str s => s
  | .arr xs => jsArrJoin xs
  | .obj _ => "[object Object]"

/-- `Array.prototype.join(",")` string conversion (`null` joins as `""`). -/
def jsArrJoin : List Js → String
  | [] => ""
  | [x] => match x with | .null => "" | v => jsToString v
  | x :: rest =>
      (match x with | .null => "" | v => jsToString v) ++ "," ++ jsArrJoin rest

end

/-- JS `a || b` on JSON values. -/
def jsOrJs (a b : Js) : Js := if jsTruthy a then a else b

/-- Truthiness of a possibly-undefined JSON value. -/
def optJsTruthy : Option Js → Bool
  | some v => jsTruthy v
  | none => false

/-- The Claude `ParsedResponse` with runtime (untyped) field values. -/
structure ClaudeParsed where
  text : Js
  sessionId : Option Js := none
  costUsd : Option Js := none
  inputTokens : Option Js := none
  outputTokens : Option Js := none

/-- The single `return` at the end of the try block: the computed text
guarded by `|| "No response received"`, plus the usage fields. -/
def claudeMkResp (text parsed : Js) : ClaudeParsed :=
  { text := jsOrJs text (.str "No response received"),
    sessionId := jsField parsed "session_id",
    costUsd := jsField parsed "cost_usd",
    inputTokens := jsField parsed "input_tokens",
    outputTokens := jsField parsed "output_tokens" }

/-- `block.text || ""` for one filtered content block. -/
def claudeBlockText (b : Js) : Js :=
  match jsField b "text" with
  | some v => if jsTruthy v then v else .str ""
  | none => .str ""

/-- The `text` computed by the if/else chain of the try block; `.error ()`
models a thrown `TypeError` (property read on `null`). -/
def claudeParseText (stringify : Js → String) (parsed : Js) :
    Except Unit Js :=
  match parsed with
  | .str s => .ok (.str s)
  | .null => .error ()
  | _ =>
      if optJsTruthy (jsField parsed "result") then
        .ok ((jsField parsed "result").getD .null)
      else if optJsTruthy (jsField parsed "message") then
        .ok ((jsField parsed "message").getD .null)
      else if optJsTruthy (jsField parsed "content") then
        match jsField parsed "content" with
        | some (.arr xs) =>
            if xs.any jsIsNull then .error ()
            else
              let texts :=
                xs.filter (fun b => jsIsStr (jsField b "type") "text")
              .ok (.str (String.intercalate "\n"
                (texts.map (fun b => jsToString (claudeBlockText b)))))
        | some other => .ok (.str (jsToString other))
        | none => .ok (.str "")
      else
        .ok (.str (stringify parsed))

/-- The body of the try block after `JSON.parse` succeeded: compute the
text, then build the response through the final guarded return. -/
def claudeParseTry (stringify : Js → String) (parsed : Js) :
    Except Unit ClaudeParsed :=
  match claudeParseText stringify parsed with
  | .ok text => .ok (claudeMkResp text parsed)
  | .error e => .error e

/-- Claude `parse`: failure branch, then try/catch around `JSON.parse`
and the navigation. -/
def claudeParse (jsonParse : String → Option Js) (stringify : Js → String)
    (result : EngineResult) : ClaudeParsed :=
  if !result.success then
    { text := .str (optStrOr result.error "An unknown error occurred") }
  else
    match jsonParse result.output with
    | none => { text := .str (strOr result.output "No response received") }
    | some parsed =>
        match claudeParseTry stringify parsed with
        | .ok resp => resp
        | .error _ =>
            { text := .str (strOr result.output "No response received") }

/-! ## General helper lemmas -/

theorem strOr_ne_empty {a b : String} (hb : b ≠ "") : strOr a b ≠ "" := by
  unfold strOr
  by_cases ha : a = "" <;> simp [ha, hb]

theorem optStrOr_ne_empty {a : Option String} {b : String} (hb : b ≠ "") :
    optStrOr a b ≠ "" := by
  unfold optStrOr
  cases a with
  | none => exact hb
  | some s => by_cases hs : s = "" <;> simp [hs, hb]

theorem getk_setk_self (m : CtxMap) (k v : String) :
    getk (setk m k v) k = some v := by
  induction m with
  | nil => simp [setk, getk]
  | cons kv rest ih =>
    obtain ⟨k0, v0⟩ := kv
    by_cases hk : k0 = k <;> simp [setk, getk, hk, ih]

/-! ## Slug lemmas (C9) -/

/-- No two adjacent dashes. -/
def noAdjacentDashes : List Char → Bool
  | [] => true
  | [_] => true
  | c1 :: c2 :: rest =>
      !(c1 = '-' && c2 = '-') && noAdjacentDashes (c2 :: rest)

theorem collapseDashes_true_head (l : List Char) :
    ∀ c rest, collapseDashes true l = c :: rest → c ≠ '-' := by
  induction l with
  | nil => intro c rest h; simp [collapseDashes] at h
  | cons c0 l0 ih =>
    intro c rest h
    by_cases hc : c0 = '-'
    · simp [collapseDashes, hc] at h
      exact ih c rest h
    · simp [collapseDashes, hc] at h
      obtain ⟨h1, _⟩ := h
      subst h1
      exact hc

theorem collapseDashes_noAdjacent (l : List Char) :
    ∀ b, noAdjacentDashes (collapseDashes b l) = true := by
  induction l with
  | nil => intro b; simp [collapseDashes, noAdjacentDashes]
  | cons c0 l0 ih =>
    intro b
    by_cases hc : c0 = '-'
    · by_cases hb : b
      · subst hb
        simp [collapseDashes, hc]
        exact ih true
      · simp at hb
        subst hb
        simp [collapseDashes, hc]
        cases hx : collapseDashes true l0 with
        | nil => simp [noAdjacentDashes]
        | cons x xs =>
          have hxd : x ≠ '-' := collapseDashes_true_head l0 x xs hx
          have := ih true
          rw [hx] at this
          simp [noAdjacentDashes, hxd, this]
    · simp [collapseDashes, hc]
      cases hx : collapseDashes false l0 with
      | nil => simp [noAdjacentDashes]
      | cons x xs =>
        have := ih false
        rw [hx] at this
        simp [noAdjacentDashes, hc, this]

theorem collapseDashes_mem {l : List Char} {b : Bool} {c : Char}
    (h : c ∈ collapseDashes b l) : c ∈ l := by
  induction l generalizing b with
  | nil => simp [collapseDashes] at h
  | cons c0 l0 ih =>
    by_cases hc : c0 = '-'
    · by_cases hb : b
      · subst hb
        simp [collapseDashes, hc] at h
        exact List.mem_cons_of_mem _ (ih h)
      · simp at hb
        subst hb
        simp [collapseDashes, hc] at h
        rcases h with h | h
        · subst h; simp [hc]
        · exact List.mem_cons_of_mem _ (ih h)
    · simp [collapseDashes, hc] at h
      rcases h with h | h
      · subst h; simp
      · exact List.mem_cons_of_mem _ (ih h)

theorem isSlugKeep_slugMapOther (c : Char) : isSlugKeep (slugMapOther c) = true := by
  unfold slugMapOther
  by_cases h : isSlugKeep c = true
  · simp [h]
  · simp [h]
    decide

theorem slugMapOther_slugMapSep (c : Char) :
    slugMapOther (slugMapSep c) = slugMapOther c := by
  unfold slugMapSep
  by_cases h : (c = '/' || c = '\\') = true
  · rcases Bool.or_eq_true_iff.mp h with h1 | h1
    · have : c = '/' := by exact_mod_cast of_decide_eq_true h1
      subst this; decide
    · have : c = '\\' := by exact_mod_cast of_decide_eq_true h1
      subst this; decide
  · simp [h]

/-- C9 counterexample: the slug of `./My Project/sub` keeps the leading
dash produced by the `.` prefix, so it is `-My-Project-sub`, not the
`My-Project-sub` the claim states. -/
theorem c9_slug_example_counterexample :
    claudeSlug "./My Project/sub" = "-My-Project-sub"
      ∧ "-My-Project-sub" ≠ "My-Project-sub" := by
  constructor
  · rfl
  · decide

/-- C9 (amended): the slug replaces path separators and all other
characters outside `[a-zA-Z0-9_-]` with `-` and collapses dash runs,
keeping a leading dash; the slug for `./My Project/sub` is
`-My-Project-sub`.  Formally: the example value; every slug character is
in `[a-zA-Z0-9_-]`; no two adjacent dashes survive; and the two
character-replacement passes compose to the single pass that dashes
every character outside the keep set. -/
theorem c9_slug_amended_theorem :
    claudeSlug "./My Project/sub" = "-My-Project-sub"
      ∧ (∀ s : String, ∀ c ∈ (claudeSlug s).data, isSlugKeep c = true)
      ∧ (∀ s : String, noAdjacentDashes (claudeSlug s).data = true)
      ∧ (∀ s : String,
          claudeSlug s = ⟨collapseDashes false (s.data.map slugMapOther)⟩) := by
  refine ⟨rfl, ?_, ?_, ?_⟩
  · intro s c hc
    have hmem : c ∈ (s.data.map slugMapSep).map slugMapOther :=
      collapseDashes_mem hc
    obtain ⟨c0, _, hco⟩ := List.mem_map.mp hmem
    rw [← hco]
    exact isSlugKeep_slugMapOther c0
  · intro s
    exact collapseDashes_noAdjacent _ false
  · intro s
    unfold claudeSlug
    rw [List.map_map]
    have hm : List.map (slugMapOther ∘ slugMapSep) s.data
        = List.map slugMapOther s.data :=
      List.map_congr_left (fun c _ => slugMapOther_slugMapSep c)
    rw [hm]

/-- C9 amended-theorem witness at a concrete input. -/
theorem c9_slug_amended_witness :
    isSlugKeep 'a' = true ∧ noAdjacentDashes (claudeSlug "a//b").data = true := by
  have h := c9_slug_amended_theorem
  refine ⟨?_, h.2.2.1 "a//b"⟩
  have : 'a' ∈ (claudeSlug "a//b").data := by decide
  exact h.2.1 "a//b" 'a' this

/-! ## Substitution lemmas (C6) -/

theorem substMarked_consume {mark : Char} {repl : String → String}
    {r body rest3 : List Char}
    (hbr : braceSplit r = some (body, rest3)) (hne : body ≠ []) :
    substMarked mark repl (mark :: '\x7b' :: r)
      = (repl ⟨body⟩).data ++ substMarked mark repl rest3 := by
  rw [substMarked]
  simp only [if_pos rfl]
  split
  · split
    · rename_i body2 rest4 heq2
      rw [hbr] at heq2
      simp only [Option.some.injEq, Prod.mk.injEq] at heq2
      obtain ⟨h1, h2⟩ := heq2
      subst h1
      subst h2
      simp [List.isEmpty_iff, hne]
    · rename_i heq2
      rw [hbr] at heq2
      simp at heq2
  · rename_i heq
    exact absurd trivial heq

theorem braceSplit_append {name suf : List Char}
    (hn : ∀ c ∈ name, c ≠ '\x7d') :
    braceSplit (name ++ '\x7d' :: suf) = some (name, suf) := by
  induction name with
  | nil => simp [braceSplit]
  | cons c0 rest ih =>
    have hc0 : c0 ≠ '\x7d' := hn c0 (List.mem_cons_self c0 rest)
    have ih2 := ih (fun c hc => hn c (List.mem_cons_of_mem c0 hc))
    simp [braceSplit, hc0, ih2]

/-- C6: every `${name}` occurrence is replaced by the mapping value when
present, else the process-environment value, else the empty string; the
replacement is a total function (it never fails).  The first conjunct
states the replacement of one occurrence (the scan continues after it);
the rest characterise the resolution order of `lookupVar`, the
replacement callback of `resolveAppVars`. -/
theorem c6_dollar_substitution_theorem :
    ∀ (vars procEnv : CtxMap) (name suf : List Char),
    name ≠ [] → (∀ c ∈ name, c ≠ '\x7d') →
    (resolveAppVars ⟨'$' :: '\x7b' :: (name ++ '\x7d' :: suf)⟩ vars procEnv
        = ⟨(lookupVar vars procEnv ⟨name⟩).data
            ++ substMarked '$' (lookupVar vars procEnv) suf⟩)
      ∧ (∀ n v, getk vars n = some v → lookupVar vars procEnv n = v)
      ∧ (∀ n v, getk vars n = none → getk procEnv n = some v →
          lookupVar vars procEnv n = v)
      ∧ (∀ n, getk vars n = none → getk procEnv n = none →
          lookupVar vars procEnv n = "") := by
  intro vars procEnv name suf hne hnb
  refine ⟨?_, ?_, ?_, ?_⟩
  · unfold resolveAppVars
    have hb : braceSplit (name ++ '\x7d' :: suf) = some (name, suf) :=
      braceSplit_append hnb
    have hc := @substMarked_consume '$' (lookupVar vars procEnv) _ _ _ hb hne
    simp only [String.data]
    rw [hc]
  · intro n v h
    simp [lookupVar, h]
  · intro n v h1 h2
    simp [lookupVar, h1, h2]
  · intro n h1 h2
    simp [lookupVar, h1, h2]

/-- C6 witness: `${USER}` resolves from the mapping before the
environment, from the environment when the mapping lacks it, and to `""`
when absent from both. -/
theorem c6_dollar_substitution_witness :
    resolveAppVars "${USER} x" [("USER", "alice")] [("USER", "bob")] = "alice x"
      ∧ lookupVar [("USER", "alice")] [("USER", "bob")] "USER" = "alice"
      ∧ lookupVar [] [("USER", "bob")] "USER" = "bob"
      ∧ lookupVar [] [] "USER" = "" := by
  obtain ⟨ha, hb, -, -⟩ :=
    c6_dollar_substitution_theorem [("USER", "alice")] [("USER", "bob")]
      "USER".data " x".data (by decide) (by decide)
  obtain ⟨-, -, hc, -⟩ :=
    c6_dollar_substitution_theorem [] [("USER", "bob")]
      "USER".data " x".data (by decide) (by decide)
  obtain ⟨-, -, -, hd⟩ :=
    c6_dollar_substitution_theorem [] []
      "USER".data " x".data (by decide) (by decide)
  refine ⟨?_, hb "USER" "alice" (by decide),
    hc "USER" "bob" (by decide) (by decide),
    hd "USER" (by decide) (by decide)⟩
  have hstr : ("${USER} x" : String)
      = ⟨'$' :: '\x7b' :: ("USER".data ++ '\x7d' :: " x".data)⟩ := by decide
  rw [hstr, ha]
  have hl : lookupVar [("USER", "alice")] [("USER", "bob")] ⟨"USER".data⟩
      = "alice" := by decide
  rw [hl]
  have hs : substMarked '$' (lookupVar [("USER", "alice")] [("USER", "bob")])
      " x".data = " x".data := by
    simp [substMarked]
  rw [hs]
  decide

/-! ## Hook-stage theorems (C7) -/

/-- C7: a hook that throws leaves the mapping of its stage identical to
the pre-hook input; a hook returning a mapping makes every key of that
mapping (in particular any extra keys) appear in the final mapping
`resolveContext` returns — stated for the project hook, and for the
global hook when no project hook exists. -/
theorem c7_hook_failure_and_merge_theorem :
    (∀ (f : Hook) (c : CtxMap) (e : String),
        f c = .error e → loadAndRunHook (some f) c = c)
      ∧ (∀ (opts : ResolveOpts) (f : Hook) (m2 : CtxMap) (k v : String),
          opts.projectHook = some f →
          f (loadAndRunHook opts.globalHook (resolveContextCore opts)) = .ok m2 →
          getk m2 k = some v →
          getk (resolveContext opts) k = some v)
      ∧ (∀ (opts : ResolveOpts) (f : Hook) (m2 : CtxMap) (k v : String),
          opts.globalHook = some f →
          opts.projectHook = none →
          f (resolveContextCore opts) = .ok m2 →
          getk m2 k = some v →
          getk (resolveContext opts) k = some v) := by
  have hok : ∀ (f : Hook) (c m2 : CtxMap), f c = .ok m2 →
      loadAndRunHook (some f) c = m2 := by
    intro f c m2 h
    simp [loadAndRunHook, h]
  have hnone : ∀ c : CtxMap, loadAndRunHook none c = c := fun _ => rfl
  refine ⟨?_, ?_, ?_⟩
  · intro f c e hf
    simp [loadAndRunHook, hf]
  · intro opts f m2 k v hph hf hk
    unfold resolveContext
    rw [hph, hok _ _ _ hf]
    exact hk
  · intro opts f m2 k v hgh hph hf hk
    unfold resolveContext
    rw [hph, hgh, hok _ _ _ hf, hnone]
    exact hk

/-- Concrete `ResolveOpts` used by the C7 witness: no config context, no
shell evaluation, a project hook that adds the key `extra`. -/
def c7WitnessOpts : ResolveOpts :=
  { gramCtx := { message := none, sender := none, chatId := none },
    configContext := none,
    bootShellCache := [],
    projectCwd := "/work/app",
    projectName := none,
    projectSlug := "app",
    procEnv := [],
    sysNow :=
      { nowMs := 0, year := 1970, monthIdx := 0, day := 1, hour := 0,
        minute := 0, second := 0, tzOffsetMinutes := 0,
        timeZone := some "UTC", toISO := fun _ => "1970-01-01T00:00:00.000Z" },
    shellEval := fun _ => none,
    globalHook := none,
    projectHook := some (fun c => .ok (setk c "extra" "1")) }

/-- C7 witness: a throwing hook leaves a concrete mapping unchanged, and
an extra key returned by the project hook appears in the final mapping. -/
theorem c7_hook_failure_and_merge_witness :
    loadAndRunHook (some (fun _ => .error "boom")) [("k", "v")] = [("k", "v")]
      ∧ getk (resolveContext c7WitnessOpts) "extra" = some "1" := by
  obtain ⟨h1, h2, -⟩ := c7_hook_failure_and_merge_theorem
  refine ⟨h1 (fun _ => .error "boom") [("k", "v")] "boom" rfl, ?_⟩
  exact h2 c7WitnessOpts (fun c => .ok (setk c "extra" "1"))
    (setk (loadAndRunHook none (resolveContextCore c7WitnessOpts)) "extra" "1")
    "extra" "1" rfl rfl (getk_setk_self _ _ _)

/-! ## Codex permission-tier theorems (C2) -/

/-- Permissiveness rank of a tier name. -/
def tierRank (t : String) : Nat :=
  if t = "yolo" then 3
  else if t = "full-disk-access" then 2
  else if t = "network-access" then 1
  else 0

/-- The tiers requested by the configured flags (plus the default). -/
def codexRequestedTiers (c : CodexConfig) : List String :=
  (if c.dangerouslyEnableYolo then ["yolo"] else [])
    ++ (if c.fullDiskAccess then ["full-disk-access"] else [])
    ++ (if c.networkAccess then ["network-access"] else [])
    ++ ["default"]

/-- Specification-side tier choice: the most permissive requested tier. -/
def mostPermissiveTier (ts : List String) : String :=
  ts.foldl (fun best t => if tierRank t > tierRank best then t else best)
    "default"

/-- C2: the Codex permission tier is a pure function of the three config
flags — the most permissive flag that is set wins, regardless of the
other flags and of every other argument — and a warning is logged
exactly when the yolo tier is selected. -/
theorem c2_codex_tier_theorem :
    ∀ (c : CodexConfig) (model : Option String) (cont : Bool)
      (cwd prompt : String),
    ((codexBuildArgs c model cont cwd prompt).tier
        = mostPermissiveTier (codexRequestedTiers c))
      ∧ ((codexBuildArgs c model cont cwd prompt).warnings ≠ []
          ↔ (codexBuildArgs c model cont cwd prompt).tier = "yolo") := by
  intro c model cont cwd prompt
  obtain ⟨y, f, n⟩ := c
  cases y <;> cases f <;> cases n <;>
    simp [codexBuildArgs, codexRequestedTiers, mostPermissiveTier, tierRank]

/-! ## Session-continuation omission (C8) -/

/-- C8: a continuation-disabled call to a passive-reset adapter builds an
argument vector without any resume/continue flag and without a session
handle.  For the Claude adapter the per-call disable is the absent
session handle (`sessionId` not passed); for the Copilot adapter it is
`continueSession: false`.  Stated both as exact argument-vector equalities
(no flag is ever appended) and as non-membership of the flag strings. -/
theorem c8_continuation_disabled_theorem :
    ∀ (prompt : String) (model : Option String) (engineSession : Bool),
    (claudeArgs prompt model none
        = ["-p", prompt, "--output-format", "stream-json", "--verbose"]
          ++ (match model with
              | some m => if m = "" then [] else ["--model", m]
              | none => []))
      ∧ (prompt ≠ "--resume" → (∀ m, model = some m → m ≠ "--resume") →
          "--resume" ∉ claudeArgs prompt model none)
      ∧ (copilotArgs prompt model engineSession (some false)
          = ["-p", prompt, "--allow-all"]
            ++ (match model with
                | some m => if m = "" then [] else ["--model", m]
                | none => []))
      ∧ (prompt ≠ "--continue" → (∀ m, model = some m → m ≠ "--continue") →
          "--continue" ∉ copilotArgs prompt model engineSession (some false)) := by
  intro prompt model engineSession
  refine ⟨?_, ?_, ?_, ?_⟩
  · simp [claudeArgs]
  · intro hp hm
    cases model with
    | none => simp [claudeArgs, Ne.symm hp]
    | some m =>
      have hmr := Ne.symm (hm m rfl)
      by_cases hme : m = "" <;> simp [claudeArgs, Ne.symm hp, hme, hmr]
  · simp [copilotArgs]
  · intro hp hm
    cases model with
    | none => simp [copilotArgs, Ne.symm hp]
    | some m =>
      have hmr := Ne.symm (hm m rfl)
      by_cases hme : m = "" <;> simp [copilotArgs, Ne.symm hp, hme, hmr]

/-- C8 witness at a concrete prompt and model. -/
theorem c8_continuation_disabled_witness :
    "--resume" ∉ claudeArgs "hello" (some "opus") none
      ∧ "--continue" ∉ copilotArgs "hello" (some "gpt") true (some false) := by
  obtain ⟨-, h2, -, h4⟩ :=
    c8_continuation_disabled_theorem "hello" (some "opus") true
  obtain ⟨-, -, -, h4b⟩ :=
    c8_continuation_disabled_theorem "hello" (some "gpt") true
  exact ⟨h2 (by decide) (by intro m hm; injection hm with h; rw [← h]; decide),
    h4b (by decide) (by intro m hm; injection hm with h; rw [← h]; decide)⟩

/-! ## Spawn-error recovery (C4) -/

/-- C4: for every adapter, a spawn error resolves `execute` to a
`success=false` result whose error message names the attempted command
(the embedding is a total function of the process outcome, so no path
throws or rejects). -/
theorem c4_spawn_error_theorem :
    ∀ (cmd msg : String) (decode : String → Option ClaudeEvent),
    (claudeExecute cmd decode (.spawnError msg)
        = { success := false, output := "",
            error := some ("Failed to start " ++ cmd ++ ": " ++ msg) })
      ∧ (codexExecute cmd (.spawnError msg)
          = { success := false, output := "",
              error := some ("Failed to start " ++ cmd ++ ": " ++ msg) })
      ∧ (copilotExecute cmd (.spawnError msg)
          = { success := false, output := "",
              error := some ("Failed to start " ++ cmd ++ ": " ++ msg) })
      ∧ (opencodeExecute cmd (.spawnError msg)
          = { success := false, output := "",
              error := some ("Failed to start " ++ cmd ++ ": " ++ msg) })
      ∧ (∃ before after,
          "Failed to start " ++ cmd ++ ": " ++ msg = before ++ cmd ++ after) := by
  intro cmd msg decode
  exact ⟨rfl, rfl, rfl, rfl, "Failed to start ", ": " ++ msg,
    by rw [String.append_assoc]⟩

/-! ## Claude stream-machine lemmas (C1 / C3 / C5) -/

theorem claudeBlocksFold_preserves (blocks : List ClaudeBlock) (st : ClaudeScan) :
    (claudeBlocksFold blocks st).lastResult = st.lastResult
      ∧ (claudeBlocksFold blocks st).currentSessionId = st.currentSessionId := by
  induction blocks generalizing st with
  | nil => exact ⟨rfl, rfl⟩
  | cons b rest ih =>
    cases b with
    | text t =>
      by_cases ht : optTruthy t = true
      · simpa [claudeBlocksFold, ht] using ih _
      · simp only [Bool.not_eq_true] at ht
        simpa [claudeBlocksFold, ht] using ih _
    | toolUse name inp => simpa [claudeBlocksFold] using ih _
    | other => simpa [claudeBlocksFold] using ih _

/-- The terminal-result branch: an event with `type = "result"` stores
the authoritative result, leaving the other scanner fields unchanged. -/
theorem claudeStep_result (st : ClaudeScan) (ev : ClaudeEvent)
    (h : ev.type = some "result") :
    claudeStep st ev
      = { st with
          lastResult := some
            { success := !ev.is_error,
              output := ev.result.getD "",
              sessionId := optOrOpt ev.session_id st.currentSessionId,
              error := claudeErrMsg ev } } := by
  simp [claudeStep, h]

/-- Every non-result event leaves `lastResult` unchanged. -/
theorem claudeStep_preserves_lastResult (st : ClaudeScan) (ev : ClaudeEvent)
    (h : ev.type ≠ some "result") :
    (claudeStep st ev).lastResult = st.lastResult := by
  simp only [claudeStep, h]
  by_cases h1 : (ev.type = some "system" && ev.subtype = some "init"
      && optTruthy ev.session_id : Bool) = true
  · by_cases h2 : (ev.type = some "assistant" && ev.content.isSome : Bool) = true
    · simp [h1, h2, h, (claudeBlocksFold_preserves _ _).1]
    · simp [h1, h2, h]
  · by_cases h2 : (ev.type = some "assistant" && ev.content.isSome : Bool) = true
    · simp [h1, h2, h, (claudeBlocksFold_preserves _ _).1]
    · simp [h1, h2, h]

/-- A result-free decoded line stream leaves `lastResult` unchanged. -/
theorem claudeFold_no_result (decode : String → Option ClaudeEvent)
    (lines : List String) (st : ClaudeScan)
    (h : ∀ l ∈ lines, ∀ ev, decode l = some ev → ev.type ≠ some "result") :
    (claudeFold decode lines st).lastResult = st.lastResult := by
  induction lines generalizing st with
  | nil => rfl
  | cons l ls ih =>
    have hl := h l (List.mem_cons_self l ls)
    have hrest : ∀ l2 ∈ ls, ∀ ev, decode l2 = some ev → ev.type ≠ some "result" :=
      fun l2 hm => h l2 (List.mem_cons_of_mem l hm)
    show (claudeFold decode ls _).lastResult = st.lastResult
    cases hd : decode l with
    | none => simpa [claudeFold, hd] using ih _ hrest
    | some ev =>
      have hpre := claudeStep_preserves_lastResult st ev (hl ev hd)
      calc (claudeFold decode (l :: ls) st).lastResult
          = (claudeFold decode ls (claudeStep st ev)).lastResult := by
            simp [claudeFold, hd]
        _ = (claudeStep st ev).lastResult := ih _ hrest
        _ = st.lastResult := hpre

theorem claudeFold_append (decode : String → Option ClaudeEvent)
    (a b : List String) (st : ClaudeScan) :
    claudeFold decode (a ++ b) st = claudeFold decode b (claudeFold decode a st) := by
  simp [claudeFold, List.foldl_append]

theorem accumStderr_empty {chunks : List String}
    (h : ∀ c ∈ chunks, jsTrim c = "") : accumStderr chunks = "" := by
  have aux : ∀ (cs : List String) (acc : String),
      (∀ c ∈ cs, jsTrim c = "") →
      cs.foldl
        (fun acc c => let t := jsTrim c; if t = "" then acc else acc ++ t ++ "\n")
        acc = acc := by
    intro cs
    induction cs with
    | nil => intro acc _; rfl
    | cons c rest ih =>
      intro acc hall
      have hc := hall c (List.mem_cons_self c rest)
      have hrest := fun c2 hm => hall c2 (List.mem_cons_of_mem c hm)
      simp only [List.foldl_cons, hc]
      simpa [hc] using ih acc hrest
  exact aux chunks "" h

/-- C5: a non-zero exit with empty stderr and no decoded terminal result
event yields a failure whose error message names the exit code, for both
the Claude (streaming) and Codex (buffered) adapters. -/
theorem c5_nonzero_exit_theorem :
    ∀ (cmd : String) (decode : String → Option ClaudeEvent)
      (stdoutChunks stderrChunks : List String) (n : Int),
    n ≠ 0 →
    (∀ c ∈ stderrChunks, jsTrim c = "") →
    ((∀ l ∈ claudeLinesOf stdoutChunks, ∀ ev, decode l = some ev →
        ev.type ≠ some "result") →
      claudeExecute cmd decode (.exited (some n) stdoutChunks stderrChunks)
        = { success := false,
            output := (claudeFold decode (claudeLinesOf stdoutChunks)
              {}).lastAssistantText,
            sessionId := none,
            error := some ("Claude exited with code " ++ toString n) })
      ∧ (codexExecute cmd (.exited (some n) stdoutChunks stderrChunks)
          = { success := false, output := "", sessionId := none,
              error := some ("Codex exited with code " ++ toString n) }) := by
  intro cmd decode stdoutChunks stderrChunks n hn hstderr
  have hacc : accumStderr stderrChunks = "" := accumStderr_empty hstderr
  constructor
  · intro hnores
    have hlast : (claudeFold decode (claudeLinesOf stdoutChunks) {}).lastResult
        = none :=
      claudeFold_no_result decode _ _ hnores
    simp [claudeExecute, claudeClose, hlast, hacc, hn, jsTrim, trimChars,
      strOr, showExitCode]
  · simp [codexExecute, hacc, hn, jsTrim, trimChars, strOr, showExitCode]

/-- C5 witness: exit code 7, no stdout, no stderr. -/
theorem c5_nonzero_exit_witness :
    claudeExecute "claude" (fun _ => none) (.exited (some 7) [] [])
        = { success := false, output := "", sessionId := none,
            error := some ("Claude exited with code 7") }
      ∧ codexExecute "codex" (.exited (some 7) [] [])
        = { success := false, output := "", sessionId := none,
            error := some ("Codex exited with code 7") } := by
  obtain ⟨h1, h2⟩ := c5_nonzero_exit_theorem "claude" (fun _ => none) [] [] 7
    (by decide) (by simp)
  constructor
  · have := h1 (by simp [claudeLinesOf])
    simpa [claudeFold, claudeLinesOf] using this
  · obtain ⟨-, h2b⟩ := c5_nonzero_exit_theorem "codex" (fun _ => none) [] [] 7
      (by decide) (by simp)
    simpa using h2b

/-! ## Terminal-result override (C3) -/

/-- C3: when a terminal `result` event is decoded after any earlier
events (in particular assistant-message events), the result resolved at
process close takes its success, output text, and session id from that
terminal event, overriding the earlier captured assistant text and
session id — whatever the earlier lines were and whatever the exit code
and stderr are. -/
theorem c3_terminal_result_override_theorem :
    ∀ (cmd : String) (decode : String → Option ClaudeEvent)
      (chunks errChunks : List String) (code : Option Int)
      (preLines postLines : List String) (resLine : String)
      (ev : ClaudeEvent) (s : String),
    claudeLinesOf chunks = preLines ++ resLine :: postLines →
    decode resLine = some ev →
    ev.type = some "result" →
    (∀ l ∈ postLines, ∀ ev2, decode l = some ev2 → ev2.type ≠ some "result") →
    ev.session_id = some s →
    s ≠ "" →
    claudeExecute cmd decode (.exited code chunks errChunks)
      = { success := !ev.is_error,
          output := ev.result.getD "",
          sessionId := some s,
          error := claudeErrMsg ev } := by
  intro cmd decode chunks errChunks code preLines postLines resLine ev s
    hlines hdec htype hpost hsid hs
  have hstep := claudeStep_result (claudeFold decode preLines {}) ev htype
  have hfold :
      claudeFold decode (claudeLinesOf chunks) {}
        = claudeFold decode postLines
            (claudeStep (claudeFold decode preLines {}) ev) := by
    rw [hlines, claudeFold_append]
    simp [claudeFold, hdec]
  have hlast :
      (claudeFold decode (claudeLinesOf chunks) {}).lastResult
        = some
          { success := !ev.is_error,
            output := ev.result.getD "",
            sessionId :=
              optOrOpt ev.session_id
                (claudeFold decode preLines {}).currentSessionId,
            error := claudeErrMsg ev } := by
    rw [hfold, claudeFold_no_result decode postLines _ hpost, hstep]
  show claudeClose (claudeFold decode (claudeLinesOf chunks) {}) code
      (accumStderr errChunks) = _
  rw [claudeClose, hlast]
  simp [optOrOpt, hsid, hs]

/-- The init, assistant, and result events used by the C3 witness. -/
def c3InitEvent : ClaudeEvent :=
  { type := some "system", subtype := some "init", session_id := some "s1" }

/-- Assistant event carrying intermediate text for the C3 witness. -/
def c3AssistantEvent : ClaudeEvent :=
  { type := some "assistant", content := some [.text (some "draft")] }

/-- Terminal result event for the C3 witness. -/
def c3ResultEvent : ClaudeEvent :=
  { type := some "result", session_id := some "s2", result := some "final" }

/-- Line decoder for the C3 witness. -/
def c3Decode (l : String) : Option ClaudeEvent :=
  if l = "I" then some c3InitEvent
  else if l = "A" then some c3AssistantEvent
  else if l = "R" then some c3ResultEvent
  else none

/-- C3 witness: an init and an assistant event precede the terminal
result in one stdout chunk; the close result carries the terminal
event's text and session id, not the captured `draft` / `s1`. -/
theorem c3_terminal_result_override_witness :
    claudeExecute "claude" c3Decode (.exited (some 0) ["I\nA\nR"] [])
      = { success := true, output := "final", sessionId := some "s2",
          error := none } := by
  have h := c3_terminal_result_override_theorem "claude" c3Decode
    ["I\nA\nR"] [] (some 0) ["I", "A"] [] "R" c3ResultEvent "s2"
    (by decide) rfl rfl (by simp) rfl (by decide)
  simpa [c3ResultEvent, claudeErrMsg, errorsJoin, optOrOpt] using h

/-! ## Failure-result error population (C1) -/

theorem append_ne_empty_left {p : String} (hp : p ≠ "") (s : String) :
    p ++ s ≠ "" := by
  intro h
  have hd : (p ++ s).data = ("" : String).data := congrArg String.data h
  rw [String.data_append] at hd
  have hpnil : p.data = [] := (List.append_eq_nil.mp hd).1
  exact hp (show p = "" from congrArg String.mk hpnil)

theorem append_ne_empty_right {s : String} (hs : s ≠ "") (p : String) :
    p ++ s ≠ "" := by
  intro h
  have hd : (p ++ s).data = ("" : String).data := congrArg String.data h
  rw [String.data_append] at hd
  have hsnil : s.data = [] := (List.append_eq_nil.mp hd).2
  exact hs (show s = "" from congrArg String.mk hsnil)

/-- The decoded terminal event of the C1 counterexample: an error result
with empty result text and an empty errors list. -/
def c1ErrEvent : ClaudeEvent :=
  { type := some "result", is_error := true, result := some "",
    errors := some [] }

/-- C1 counterexample: a stream whose terminal result event is an error
with empty `result` text and an empty `errors` array resolves to
`success = false` with the `error` field absent — not populated with a
non-empty string as the claim requires. -/
theorem c1_error_populated_counterexample :
    (claudeExecute "claude"
        (fun l => if l = "R" then some c1ErrEvent else none)
        (.exited (some 0) ["R"] [])).success = false
      ∧ (claudeExecute "claude"
          (fun l => if l = "R" then some c1ErrEvent else none)
          (.exited (some 0) ["R"] [])).error = none := by
  constructor <;> rfl

/-- C1 (amended): for the claude and codex adapters, `success = false`
implies a populated non-empty `error` on the spawn-error path and on the
non-zero-exit path without a decoded terminal event; on the
terminal-result path the error is populated (and non-empty) whenever the
decoded error event carries non-empty result text, but it may be absent
when the event carries neither result text nor errors entries. -/
theorem c1_error_populated_amended_theorem :
    ∀ (cmd msg : String) (decode : String → Option ClaudeEvent)
      (chunks errChunks : List String) (n : Int) (code : Option Int)
      (preLines postLines : List String) (resLine : String)
      (ev : ClaudeEvent),
    ((claudeExecute cmd decode (.spawnError msg)).success = false
        ∧ ∃ e, (claudeExecute cmd decode (.spawnError msg)).error = some e
            ∧ e ≠ "")
    ∧ ((codexExecute cmd (.spawnError msg)).success = false
        ∧ ∃ e, (codexExecute cmd (.spawnError msg)).error = some e ∧ e ≠ "")
    ∧ (n ≠ 0 →
        (∀ l ∈ claudeLinesOf chunks, ∀ ev2, decode l = some ev2 →
          ev2.type ≠ some "result") →
        ∃ e, (claudeExecute cmd decode
            (.exited (some n) chunks errChunks)).error = some e ∧ e ≠ "")
    ∧ ((codexExecute cmd (.exited code chunks errChunks)).success = false →
        ∃ e, (codexExecute cmd (.exited code chunks errChunks)).error
            = some e ∧ e ≠ "")
    ∧ (claudeLinesOf chunks = preLines ++ resLine :: postLines →
        decode resLine = some ev →
        ev.type = some "result" →
        (∀ l ∈ postLines, ∀ ev2, decode l = some ev2 →
          ev2.type ≠ some "result") →
        ev.is_error = true →
        optTruthy ev.result = true →
        ∃ e, (claudeExecute cmd decode
            (.exited code chunks errChunks)).error = some e ∧ e ≠ "") := by
  intro cmd msg decode chunks errChunks n code preLines postLines resLine ev
  refine ⟨⟨rfl, ?_⟩, ⟨rfl, ?_⟩, ?_, ?_, ?_⟩
  · exact ⟨"Failed to start " ++ cmd ++ ": " ++ msg, rfl,
      append_ne_empty_left (append_ne_empty_right (by decide) _) msg⟩
  · exact ⟨"Failed to start " ++ cmd ++ ": " ++ msg, rfl,
      append_ne_empty_left (append_ne_empty_right (by decide) _) msg⟩
  · intro hn hnores
    have hlast : (claudeFold decode (claudeLinesOf chunks) {}).lastResult
        = none := claudeFold_no_result decode _ _ hnores
    have herr2 : (claudeExecute cmd decode
        (.exited (some n) chunks errChunks)).error
        = some (strOr (jsTrim (accumStderr errChunks))
            ("Claude exited with code " ++ toString n)) := by
      show (claudeClose _ _ _).error = _
      rw [claudeClose, hlast]
      simp [hn, showExitCode]
    exact ⟨_, herr2, strOr_ne_empty (append_ne_empty_left (by decide) _)⟩
  · intro hfail
    by_cases hc : code = some 0
    · rw [codexExecute, hc] at hfail
      simp at hfail
    · have herr2 : (codexExecute cmd (.exited code chunks errChunks)).error
          = some (strOr (jsTrim (accumStderr errChunks))
              ("Codex exited with code " ++ showExitCode code)) := by
        rw [codexExecute]
        simp [hc]
      exact ⟨_, herr2, strOr_ne_empty (append_ne_empty_left (by decide) _)⟩
  · intro hlines hdec htype hpost herr htruthy
    obtain ⟨r, hr⟩ : ∃ r, ev.result = some r :=
      match ev.result, htruthy with
      | some r, _ => ⟨r, rfl⟩
    have hrne : r ≠ "" := by
      rw [hr] at htruthy
      simpa [optTruthy] using htruthy
    have hstep := claudeStep_result (claudeFold decode preLines {}) ev htype
    have hfold :
        claudeFold decode (claudeLinesOf chunks) {}
          = claudeFold decode postLines
              (claudeStep (claudeFold decode preLines {}) ev) := by
      rw [hlines, claudeFold_append]
      simp [claudeFold, hdec]
    have hlast :
        (claudeFold decode (claudeLinesOf chunks) {}).lastResult
          = some
            { success := !ev.is_error,
              output := ev.result.getD "",
              sessionId :=
                optOrOpt ev.session_id
                  (claudeFold decode preLines {}).currentSessionId,
              error := claudeErrMsg ev } := by
      rw [hfold, claudeFold_no_result decode postLines _ hpost, hstep]
    refine ⟨r, ?_, hrne⟩
    show (claudeClose _ _ _).error = _
    rw [claudeClose, hlast]
    simp [claudeErrMsg, herr, hr, optOrOpt, hrne]

/-- Error result event with non-empty result text, for the C1 witness. -/
def c1BoomEvent : ClaudeEvent :=
  { type := some "result", is_error := true, result := some "boom" }

/-- Line decoder for the C1 witness. -/
def c1Decode (l : String) : Option ClaudeEvent :=
  if l = "R" then some c1BoomEvent else none

/-- C1 amended-theorem witness: concrete spawn-error, non-zero-exit, and
error-terminal-event runs all carry non-empty error strings. -/
theorem c1_error_populated_amended_witness :
    (∃ e, (claudeExecute "claude" (fun _ => none)
        (.spawnError "ENOENT")).error = some e ∧ e ≠ "")
      ∧ (∃ e, (claudeExecute "claude" (fun _ => none)
          (.exited (some 2) ["junk"] [])).error = some e ∧ e ≠ "")
      ∧ (∃ e, (codexExecute "codex"
          (.exited (some 3) [] [])).error = some e ∧ e ≠ "")
      ∧ (∃ e, (claudeExecute "claude" c1Decode
          (.exited (some 0) ["R"] [])).error = some e ∧ e ≠ "") := by
  obtain ⟨⟨-, h1⟩, -, h3, h4, h5⟩ :=
    c1_error_populated_amended_theorem "claude" "ENOENT" (fun _ => none)
      ["junk"] [] 2 (some 3) [] [] "" { }
  obtain ⟨-, -, -, h4c, -⟩ :=
    c1_error_populated_amended_theorem "codex" "m" (fun _ => none)
      [] [] 1 (some 3) [] [] "" { }
  obtain ⟨-, -, -, -, h5c⟩ :=
    c1_error_populated_amended_theorem "claude" "m" c1Decode
      ["R"] [] 1 (some 0) [] [] "R" c1BoomEvent
  refine ⟨h1, h3 (by decide) ?_, h4c (by decide), ?_⟩
  · intro l hl ev2 hd
    simp at hd
  · exact h5c (by decide) rfl rfl (by simp) rfl rfl

/-! ## Parse totality (C10) -/

theorem jsOrJs_truthy {a b : Js} (hb : jsTruthy b = true) :
    jsTruthy (jsOrJs a b) = true := by
  by_cases ha : jsTruthy a = true
  · simp [jsOrJs, ha]
  · simp only [Bool.not_eq_true] at ha
    simp [jsOrJs, ha, hb]

theorem claudeMkResp_truthy (t p : Js) :
    jsTruthy (claudeMkResp t p).text = true := by
  exact jsOrJs_truthy (by decide)

theorem claudeParseTry_ok_truthy {stringify : Js → String} {parsed : Js}
    {resp : ClaudeParsed} (h : claudeParseTry stringify parsed = .ok resp) :
    jsTruthy resp.text = true := by
  unfold claudeParseTry at h
  cases ht : claudeParseText stringify parsed with
  | ok t =>
    rw [ht] at h
    simp only [Except.ok.injEq] at h
    rw [← h]
    exact claudeMkResp_truthy t parsed
  | error e =>
    rw [ht] at h
    simp at h

/-- C10: every adapter `parse` is total with a non-empty text; when
`success = false` the text is the result's error string, or the fixed
fallback `"An unknown error occurred"` when the error is absent or
empty. -/
theorem c10_parse_total_theorem :
    ∀ (jsonParse : String → Option Js) (stringify : Js → String)
      (r : EngineResult),
    (jsTruthy (claudeParse jsonParse stringify r).text = true)
      ∧ (r.success = false →
          (claudeParse jsonParse stringify r).text
            = .str (optStrOr r.error "An unknown error occurred"))
      ∧ (codexParse r ≠ ""
          ∧ (r.success = false →
              codexParse r = optStrOr r.error "An unknown error occurred"))
      ∧ (copilotParse r ≠ ""
          ∧ (r.success = false →
              copilotParse r = optStrOr r.error "An unknown error occurred"))
      ∧ (opencodeParse r ≠ ""
          ∧ (r.success = false →
              opencodeParse r = optStrOr r.error "An unknown error occurred"))
      ∧ (∀ (o : Option String) (d : String),
          (o = none → optStrOr o d = d)
            ∧ (o = some "" → optStrOr o d = d)
            ∧ (∀ e, o = some e → e ≠ "" → optStrOr o d = e)) := by
  intro jsonParse stringify r
  have hfb : ("An unknown error occurred" : String) ≠ "" := by decide
  have hnr : ("No response received" : String) ≠ "" := by decide
  refine ⟨?_, ?_, ⟨?_, ?_⟩, ⟨?_, ?_⟩, ⟨?_, ?_⟩, ?_⟩
  · cases hs : r.success with
    | false =>
      simp only [claudeParse, hs, Bool.not_false, if_pos]
      simpa [jsTruthy] using optStrOr_ne_empty hfb
    | true =>
      cases hj : jsonParse r.output with
      | none =>
        simp only [claudeParse, hs, hj]
        simpa [jsTruthy] using strOr_ne_empty hnr
      | some parsed =>
        cases htr : claudeParseTry stringify parsed with
        | ok resp =>
          simp only [claudeParse, hs, hj, htr, Bool.not_true,
            Bool.false_eq_true, if_false]
          exact claudeParseTry_ok_truthy htr
        | error e =>
          simp only [claudeParse, hs, hj, htr]
          simpa [jsTruthy] using strOr_ne_empty hnr
  · intro hs
    simp [claudeParse, hs]
  · cases hs : r.success with
    | false => simpa [codexParse, hs] using optStrOr_ne_empty hfb
    | true => simpa [codexParse, hs] using strOr_ne_empty hnr
  · intro hs
    simp [codexParse, hs]
  · cases hs : r.success with
    | false => simpa [copilotParse, hs] using optStrOr_ne_empty hfb
    | true => simpa [copilotParse, hs] using strOr_ne_empty hnr
  · intro hs
    simp [copilotParse, hs]
  · cases hs : r.success with
    | false => simpa [opencodeParse, hs] using optStrOr_ne_empty hfb
    | true => simpa [opencodeParse, hs] using strOr_ne_empty hnr
  · intro hs
    simp [opencodeParse, hs]
  · intro o d
    refine ⟨?_, ?_, ?_⟩
    · intro h; simp [optStrOr, h]
    · intro h; simp [optStrOr, h]
    · intro e he hne
      simp [optStrOr, he, hne]

/-- C10 witness: a failure result with an absent error yields the fixed
fallback text in every adapter, and a success result with JSON output has
truthy text. -/
theorem c10_parse_total_witness :
    (claudeParse (fun _ => none) (fun _ => "")
        { success := false, output := "", error := none }).text
      = .str "An unknown error occurred"
      ∧ codexParse { success := false, output := "", error := some "" }
        = "An unknown error occurred"
      ∧ copilotParse { success := false, output := "", error := some "oops" }
        = "oops"
      ∧ opencodeParse { success := false, output := "", error := none }
        = "An unknown error occurred"
      ∧ jsTruthy (claudeParse (fun _ => some (.obj [("result", .str "hi")]))
          (fun _ => "") { success := true, output := "x" }).text = true := by
  obtain ⟨-, h2, ⟨-, h3⟩, -, -, -⟩ :=
    c10_parse_total_theorem (fun _ => none) (fun _ => "")
      { success := false, output := "", error := none }
  obtain ⟨-, -, -, -, -, hord⟩ :=
    c10_parse_total_theorem (fun _ => none) (fun _ => "")
      { success := false, output := "", error := none }
  obtain ⟨-, -, ⟨-, h3b⟩, -, -, -⟩ :=
    c10_parse_total_theorem (fun _ => none) (fun _ => "")
      { success := false, output := "", error := some "" }
  obtain ⟨-, -, -, ⟨-, h4⟩, -, -⟩ :=
    c10_parse_total_theorem (fun _ => none) (fun _ => "")
      { success := false, output := "", error := some "oops" }
  obtain ⟨-, -, -, -, ⟨-, h5⟩, -⟩ :=
    c10_parse_total_theorem (fun _ => none) (fun _ => "")
      { success := false, output := "", error := none }
  obtain ⟨h6, -, -, -, -, -⟩ :=
    c10_parse_total_theorem (fun _ => some (.obj [("result", .str "hi")]))
      (fun _ => "") { success := true, output := "x" }
  refine ⟨?_, ?_, ?_, ?_, h6⟩
  · rw [h2 rfl]
    simp [optStrOr]
  · rw [h3b rfl]
    simp [optStrOr]
  · rw [h4 rfl]
    simp [optStrOr]
  · rw [h5 rfl]
    simp [optStrOr]

end Ccpa
